import Mathlib

/-!
Verification of the IPPcode24 parser (`parse.py`).

The development shallowly embeds the parser: every definition below is a
direct translation of the corresponding Python function, over `Str = List
Char`.  Python regular expressions are translated into character-predicate
matchers, including the quirk that a final `$` anchor also matches just
before one trailing newline.  Character classes that are Unicode-aware in
Python (`\w`, `\d`, `\s`) are modelled over ASCII together with the
Latin-1 block; every character handled in this development lies in that
range.
-/

deriving instance DecidableEq for Except

namespace IPP24

/-- A Python string, modelled as its list of characters. -/
abbrev Str := List Char

/-- Python whitespace (`\s`, `str.strip()`, `str.split()`), restricted to
the ASCII range. -/
def isSpaceChar (c : Char) : Bool :=
  c = ' ' || c = '\t' || c = '\n' || c = '\r' || c = '\x0b' || c = '\x0c'

/-- Strip trailing whitespace, as the right half of Python `str.strip()`. -/
def pyRStrip (s : Str) : Str :=
  (s.reverse.dropWhile isSpaceChar).reverse

/-- Python `str.strip()`: remove leading and trailing whitespace. -/
def pyStrip (s : Str) : Str :=
  pyRStrip (s.dropWhile isSpaceChar)

/-- True for every character other than `#`; used to cut off comments. -/
def notHash (c : Char) : Bool := c != '#'

/-- Python `line.split("#")[0].strip()`: the text before the first `#`,
trimmed. -/
def commentStrip (s : Str) : Str :=
  pyStrip (s.takeWhile notHash)

/-- Python `s.split(c, 1)` when `c` occurs: the parts before and after the
first occurrence of `c`, or `none` when `c` does not occur. -/
def splitOnceAt (c : Char) : Str → Option (Str × Str)
  | [] => none
  | x :: xs =>
    if x = c then some ([], xs)
    else (splitOnceAt c xs).map (fun p => (x :: p.1, p.2))

/-- A full regex match `re.match(r"^core$", s)`: the pattern matches all of
`s`, or all of `s` short of one trailing newline (the Python `$` anchor
also matches just before a final newline). -/
def pyMatchDollar (core : Str → Bool) (s : Str) : Bool :=
  core s || (s.getLast? == some '\n' && core s.dropLast)

/-- Regex `X?core` for a single literal character `X`: the sign is consumed
when present and the core must match the rest, or the core matches the
whole string. -/
def optSign (sign : Char) (core : Str → Bool) (s : Str) : Bool :=
  core s ||
    (match s with
     | c :: rest => c == sign && core rest
     | [] => false)

/-- Regex `\d+` over ASCII digits (Python `\d` is Unicode-aware; the model
restricts it to ASCII, which covers every string in this development). -/
def digitsCore (s : Str) : Bool :=
  !s.isEmpty && s.all Char.isDigit

/-- Regex character class `[0-9a-fA-F]`. -/
def hexDigitChar (c : Char) : Bool :=
  c.isDigit || ('a' ≤ c && c ≤ 'f') || ('A' ≤ c && c ≤ 'F')

/-- Regex character class `[0-7]`. -/
def octDigitChar (c : Char) : Bool :=
  '0' ≤ c && c ≤ '7'

/-- Regex `0x[0-9a-fA-F]+` — note the literal lower-case `x`, exactly as in
the source regex `^-?0x[0-9a-fA-F]+$` (no `re.IGNORECASE`). -/
def hexCore : Str → Bool
  | c0 :: c1 :: ds => c0 == '0' && c1 == 'x' && !ds.isEmpty && ds.all hexDigitChar
  | _ => false

/-- Regex `0o[0-7]+` — literal lower-case `o`, as in `^-?0o[0-7]+$`. -/
def octCore : Str → Bool
  | c0 :: c1 :: ds => c0 == '0' && c1 == 'o' && !ds.isEmpty && ds.all octDigitChar
  | _ => false

/-- The source regex `^-?\d+$`. -/
def intDec (s : Str) : Bool := pyMatchDollar (optSign '-' digitsCore) s

/-- The source regex `^-?0x[0-9a-fA-F]+$`. -/
def intHex (s : Str) : Bool := pyMatchDollar (optSign '-' hexCore) s

/-- The source regex `^-?0o[0-7]+$`. -/
def intOct (s : Str) : Bool := pyMatchDollar (optSign '-' octCore) s

/-- The source regex `^\+?\d+$`. -/
def intPos (s : Str) : Bool := pyMatchDollar (optSign '+' digitsCore) s

/-- The core of the string-literal regex `([^\\\s]|(\\[0-9]{3}))*`: a
sequence of units, each either a single non-backslash non-whitespace
character or a backslash followed by exactly three ASCII digits. -/
def stringCore : Str → Bool
  | [] => true
  | c :: rest =>
    if c = '\\' then
      match rest with
      | d1 :: d2 :: d3 :: rest2 =>
        d1.isDigit && d2.isDigit && d3.isDigit && stringCore rest2
      | _ => false
    else
      !isSpaceChar c && stringCore rest

/-- Python `re.match(r"^\s*\.IPPcode24\s*$", line, re.IGNORECASE)` from
`is_header` (line 54): optional whitespace, the word `.IPPcode24` up to
ASCII case, optional whitespace. -/
def is_header (line : Str) : Bool :=
  let t := line.dropWhile isSpaceChar
  (t.take 10).map Char.toLower == ".ippcode24".toList && (t.drop 10).all isSpaceChar

/-- First-character class `[a-zA-Z_\-$&%*!?]` of the identifier regex. -/
def firstVarChar (c : Char) : Bool :=
  c.isAlpha || c == '_' || c == '-' || c == '$' || c == '&' || c == '%' ||
    c == '*' || c == '!' || c == '?'

/-- Python `\w` in Unicode mode: `[0-9A-Za-z_]` plus all Unicode
alphanumeric characters.  The model covers ASCII together with the Latin-1
block (the full Unicode table is out of scope for this embedding; every
character handled in this development lies in this range). -/
def pyWordChar (c : Char) : Bool :=
  c.isAlphanum || c == '_' ||
    (let n := c.toNat
     n == 0xAA || n == 0xB2 || n == 0xB3 || n == 0xB5 || n == 0xB9 || n == 0xBA ||
       n == 0xBC || n == 0xBD || n == 0xBE ||
       (0xC0 ≤ n && n ≤ 0xFF && n != 0xD7 && n != 0xF7))

/-- Subsequent-character class `[\w\-$&%*!?]` of the identifier regex. -/
def subVarChar (c : Char) : Bool :=
  pyWordChar c || c == '-' || c == '$' || c == '&' || c == '%' ||
    c == '*' || c == '!' || c == '?'

/-- The core of the identifier regex `[a-zA-Z_\-$&%*!?][\w\-$&%*!?]*`,
shared by `is_var` (line 64) and `is_label` (line 93). -/
def nameCore : Str → Bool
  | [] => false
  | c :: cs => firstVarChar c && cs.all subVarChar

/-- `is_var` (lines 58-64): split at the first `@`, require a frame in
`GF`/`TF`/`LF` and an identifier-shaped name. -/
def is_var (v : Str) : Bool :=
  match splitOnceAt '@' v with
  | none => false
  | some (frame, name) =>
    (frame == "GF".toList || frame == "TF".toList || frame == "LF".toList) &&
      pyMatchDollar nameCore name

/-- `is_type` (lines 88-89): `re.match(r"^(int|bool|string|nil)$", type_)`. -/
def is_type (t : Str) : Bool :=
  pyMatchDollar
    (fun s =>
      s == "int".toList || s == "bool".toList || s == "string".toList ||
        s == "nil".toList)
    t

/-- `is_label` (lines 92-93): the bare identifier regex. -/
def is_label (l : Str) : Bool :=
  pyMatchDollar nameCore l

/-- `is_symb` (lines 67-85): split at the first `@`, require a valid type
keyword before it and a type-specific value shape after it. -/
def is_symb (s : Str) : Bool :=
  match splitOnceAt '@' s with
  | none => false
  | some (ty, value) =>
    if !is_type ty then false
    else if ty = "nil".toList then value == "nil".toList
    else if ty = "int".toList then
      intDec value || intHex value || intOct value || intPos value
    else if ty = "bool".toList then
      value == "true".toList || value == "false".toList
    else if ty = "string".toList then
      pyMatchDollar stringCore value
    else false

/-- The failure taxonomy of the parser.  Each constructor corresponds to
one family of `sys.exit` sites in the source: `MissingHeader` to the two
exit-21 sites in `main`, `UnknownOpcode` to the missing/unknown-instruction
exits in `parse_instruction`, `ArityMismatch` to the operand-count exit,
`InvalidOperand` to the two resolution-failure exits in
`determine_operand_type_and_value` (the spec calls this kind
`InvalidOperandSyntax`), and `OperandTypeMismatch` to the
incorrect-operand-type exit. -/
inductive PError where
  | MissingHeader
  | UnknownOpcode
  | ArityMismatch
  | InvalidOperand
  | OperandTypeMismatch
deriving DecidableEq

/-- A resolved operand: its concrete kind string (`var`, `int`, `bool`,
`string`, `nil`, `label`, `type`) and its value text, exactly the pair
returned by `determine_operand_type_and_value`. -/
structure Operand where
  kind : Str
  value : Str
deriving DecidableEq

/-- One parsed instruction, as assembled at lines 152-167: 1-based order,
upper-cased opcode, operands in positional order. -/
structure InstructionRecord where
  order : Nat
  opcode : Str
  operands : List Operand
deriving DecidableEq

/-- `validate_operand_type` (lines 96-105).  The `operand` argument is
unused, exactly as in the source. -/
def validate_operand_type (expected actual operand : Str) : Bool :=
  (expected == "v".toList && actual == "var".toList) ||
    (expected == "s".toList &&
      (actual == "var".toList || actual == "int".toList || actual == "bool".toList ||
        actual == "string".toList || actual == "nil".toList)) ||
    (expected == "l".toList && actual == "label".toList) ||
    (expected == "t".toList && actual == "type".toList)

/-- `determine_operand_type_and_value` (lines 108-124).  Both `sys.exit(23)`
sites in this function print an invalid-format message, so both map to
`InvalidOperand`.  The `none` branch of the inner match is unreachable:
`is_symb` guarantees an `@` is present. -/
def determine_operand_type_and_value (operand expected : Str) :
    Except PError (Str × Str) :=
  if expected = "l".toList then
    if is_label operand then .ok ("label".toList, operand)
    else .error .InvalidOperand
  else if is_type operand then .ok ("type".toList, operand)
  else if is_var operand then .ok ("var".toList, operand)
  else if is_symb operand then
    match splitOnceAt '@' operand with
    | some (ty, value) => .ok (ty, value)
    | none => .error .InvalidOperand
  else .error .InvalidOperand

/-- The signature table `instructions` (lines 8-51), as an association
list from lower-case opcode to the ordered expected-category strings. -/
def instructions : List (Str × List Str) :=
  [("move".toList, ["v".toList, "s".toList]),
   ("createframe".toList, []),
   ("pushframe".toList, []),
   ("popframe".toList, []),
   ("defvar".toList, ["v".toList]),
   ("call".toList, ["l".toList]),
   ("return".toList, []),
   ("pushs".toList, ["s".toList]),
   ("pops".toList, ["v".toList]),
   ("add".toList, ["v".toList, "s".toList, "s".toList]),
   ("sub".toList, ["v".toList, "s".toList, "s".toList]),
   ("mul".toList, ["v".toList, "s".toList, "s".toList]),
   ("idiv".toList, ["v".toList, "s".toList, "s".toList]),
   ("lt".toList, ["v".toList, "s".toList, "s".toList]),
   ("gt".toList, ["v".toList, "s".toList, "s".toList]),
   ("eq".toList, ["v".toList, "s".toList, "s".toList]),
   ("and".toList, ["v".toList, "s".toList, "s".toList]),
   ("or".toList, ["v".toList, "s".toList, "s".toList]),
   ("not".toList, ["v".toList, "s".toList]),
   ("int2char".toList, ["v".toList, "s".toList]),
   ("stri2int".toList, ["v".toList, "s".toList, "s".toList]),
   ("read".toList, ["v".toList, "t".toList]),
   ("write".toList, ["s".toList]),
   ("concat".toList, ["v".toList, "s".toList, "s".toList]),
   ("strlen".toList, ["v".toList, "s".toList]),
   ("getchar".toList, ["v".toList, "s".toList, "s".toList]),
   ("setchar".toList, ["v".toList, "s".toList, "s".toList]),
   ("type".toList, ["v".toList, "s".toList]),
   ("label".toList, ["l".toList]),
   ("jump".toList, ["l".toList]),
   ("jumpifeq".toList, ["l".toList, "s".toList, "s".toList]),
   ("jumpifneq".toList, ["l".toList, "s".toList, "s".toList]),
   ("exit".toList, ["s".toList]),
   ("dprint".toList, ["s".toList]),
   ("break".toList, [])]

/-- Python `instruction.split(maxsplit=1)`: at most two pieces, leading
whitespace skipped, a whitespace-only remainder dropped, the separator run
after the first word consumed. -/
def pySplitOnce (s : Str) : List Str :=
  let s1 := s.dropWhile isSpaceChar
  match s1 with
  | [] => []
  | c :: cs =>
    let w := c :: cs.takeWhile (fun x => !isSpaceChar x)
    let rest := (cs.dropWhile (fun x => !isSpaceChar x)).dropWhile isSpaceChar
    if rest.isEmpty then [w] else [w, rest]

/-- Worker for `splitWs`: `acc` is the current word, reversed. -/
def splitWsGo (acc : Str) : Str → List Str
  | [] => if acc.isEmpty then [] else [acc.reverse]
  | c :: cs =>
    if isSpaceChar c then
      if acc.isEmpty then splitWsGo [] cs
      else acc.reverse :: splitWsGo [] cs
    else splitWsGo (c :: acc) cs

/-- Python `re.split(r'\s+', s)` on an already-stripped string: the
whitespace-separated words. -/
def splitWs (s : Str) : List Str :=
  splitWsGo [] s

/-- The operand token list of lines 134-144, computed from the
`split(maxsplit=1)` result: no remainder gives no operands, otherwise the
remainder is stripped and split on whitespace runs.  (`pySplitOnce` never
produces a whitespace-only remainder, so the `operands_raw[0] == ''` guard
of the source is the no-remainder case.) -/
def operandTokens : List Str → List Str
  | _ :: r :: _ => splitWs (pyStrip r)
  | _ => []

/-- One iteration of the operand loop (lines 154-162): resolve the token,
then check the resolved kind against the expected category. -/
def processOperand (expected operand : Str) : Except PError Operand :=
  match determine_operand_type_and_value operand expected with
  | .error e => .error e
  | .ok (actual, value) =>
    if validate_operand_type expected actual operand then .ok ⟨actual, value⟩
    else .error .OperandTypeMismatch

/-- The operand loop of lines 154-165, pairing expected categories with
tokens positionally.  The final catch-all branch is unreachable: the arity
check has already ensured equal lengths. -/
def resolveOperands : List Str → List Str → Except PError (List Operand)
  | [], [] => .ok []
  | e :: es, o :: os =>
    match processOperand e o with
    | .error err => .error err
    | .ok op =>
      match resolveOperands es os with
      | .error err => .error err
      | .ok ops => .ok (op :: ops)
  | _, _ => .error .ArityMismatch

/-- `parse_instruction` (lines 127-167). -/
def parse_instruction (instruction : Str) (order : Nat) :
    Except PError InstructionRecord :=
  match pySplitOnce instruction with
  | [] => .error .UnknownOpcode
  | name :: rest =>
    let lowerName := name.map Char.toLower
    match instructions.lookup lowerName with
    | none => .error .UnknownOpcode
    | some expected =>
      let operands := operandTokens (name :: rest)
      if operands.length ≠ expected.length then .error .ArityMismatch
      else
        match resolveOperands expected operands with
        | .error e => .error e
        | .ok ops => .ok ⟨order, lowerName.map Char.toUpper, ops⟩

/-- The skip test of line 194 on the stripped line: empty, or starting
with `#`. -/
def skipLine (l : Str) : Bool :=
  match pyStrip l with
  | [] => true
  | c :: _ => c == '#'

/-- The body phase of the `main` loop (lines 205-209), entered once the
header has been consumed: skip blank and comment lines, strip the comment
suffix, and hand each remaining line to `parse_instruction` with the next
order number.  `o` is the number of instructions already emitted. -/
def runBody (o : Nat) : List Str → Except PError (List InstructionRecord)
  | [] => .ok []
  | l :: ls =>
    if skipLine l then runBody o ls
    else if (commentStrip (pyStrip l)).isEmpty then runBody o ls
    else
      match parse_instruction (commentStrip (pyStrip l)) (o + 1) with
      | .error e => .error e
      | .ok r =>
        match runBody (o + 1) ls with
        | .error e => .error e
        | .ok rest => .ok (r :: rest)

/-- The `main` loop (lines 188-214) up to XML serialization: skip blank and
comment lines while awaiting the header, require the first contentful line
to be the header, then run the body; reaching the end of input without a
header is a `MissingHeader` failure. -/
def assemble : List Str → Except PError (List InstructionRecord)
  | [] => .error .MissingHeader
  | l :: ls =>
    if skipLine l then assemble ls
    else if is_header (commentStrip (pyStrip l)) then runBody 0 ls
    else .error .MissingHeader

/-- Claim C1, first form: optional leading `-`, then decimal digits. -/
def specC1Dec : Str → Bool
  | '-' :: ds => digitsCore ds
  | s => digitsCore s

/-- Claim C1, hex body: `0x` or `0X`, then hex digits. -/
def specC1HexBody : Str → Bool
  | '0' :: x :: ds => (x == 'x' || x == 'X') && !ds.isEmpty && ds.all hexDigitChar
  | _ => false

/-- Claim C1, second form: optional leading `-`, then `0x`/`0X`, then hex
digits. -/
def specC1Hex : Str → Bool
  | '-' :: rest => specC1HexBody rest
  | s => specC1HexBody s

/-- Claim C1, octal body: `0o` or `0O`, then octal digits. -/
def specC1OctBody : Str → Bool
  | '0' :: x :: ds => (x == 'o' || x == 'O') && !ds.isEmpty && ds.all octDigitChar
  | _ => false

/-- Claim C1, third form: optional leading `-`, then `0o`/`0O`, then octal
digits. -/
def specC1Oct : Str → Bool
  | '-' :: rest => specC1OctBody rest
  | s => specC1OctBody s

/-- Claim C1, fourth form: optional leading `+`, then decimal digits. -/
def specC1Pos : Str → Bool
  | '+' :: ds => digitsCore ds
  | s => digitsCore s

/-- The integer-literal forms exactly as claim C1 states them: optional
`-` then decimal digits; optional `-` then `0x` or `0X` then hex digits;
optional `-` then `0o` or `0O` then octal digits; optional `+` then
decimal digits. -/
def specC1Forms (s : Str) : Bool :=
  specC1Dec s || specC1Hex s || specC1Oct s || specC1Pos s

/-- Claim C9 symbol set: `- $ & % * ! ?`. -/
def specC9Symbol (c : Char) : Bool :=
  c == '-' || c == '$' || c == '&' || c == '%' || c == '*' || c == '!' || c == '?'

/-- Claim C9 first-character set: ASCII letter, underscore, or the symbol
set. -/
def specC9First (c : Char) : Bool :=
  c.isAlpha || c == '_' || specC9Symbol c

/-- Claim C9 subsequent-character set: ASCII alphanumerics, underscore, or
the symbol set. -/
def specC9Rest (c : Char) : Bool :=
  c.isAlphanum || c == '_' || specC9Symbol c

/-- The variable grammar exactly as claim C9 states it: frame in
`GF`/`TF`/`LF`, name whose first character is an ASCII letter, underscore
or one of `-$&%*!?`, and whose subsequent characters are ASCII
alphanumerics or characters from that same set — no other characters
permitted. -/
def specC9Var (t : Str) : Bool :=
  match splitOnceAt '@' t with
  | none => false
  | some (frame, name) =>
    (frame == "GF".toList || frame == "TF".toList || frame == "LF".toList) &&
      (match name with
       | [] => false
       | c :: cs => specC9First c && cs.all specC9Rest)

/-- Acceptance of a multi-`@` token as amended claim C2 describes it: the
part before the first `@` must be the type keyword `string` and the
remainder (which contains the extra `@` characters) must satisfy the
string-value grammar. -/
def specMultiAt (t : Str) : Bool :=
  match splitOnceAt '@' t with
  | none => false
  | some (ty, value) => ty == "string".toList && pyMatchDollar stringCore value

/-- A body line that counts as an instruction per claim C5: non-empty
after comment-stripping and trimming. -/
def specBodyLine (l : Str) : Bool :=
  !(commentStrip l).isEmpty

/-- The lines after the accepted header: skip the skippable lines, drop
the first contentful line (the header itself on a successful run), keep
the rest. -/
def bodyLines : List Str → List Str
  | [] => []
  | l :: ls => if skipLine l then bodyLines ls else ls

theorem splitOnceAt_eq_some (c : Char) (s a b : Str)
    (h : splitOnceAt c s = some (a, b)) : s = a ++ c :: b ∧ c ∉ a := by
  induction s generalizing a b with
  | nil => simp [splitOnceAt] at h
  | cons x xs ih =>
    by_cases hx : x = c
    · subst hx
      rw [splitOnceAt, if_pos rfl] at h
      simp only [Option.some.injEq, Prod.mk.injEq] at h
      obtain ⟨ha, hb⟩ := h
      subst ha; subst hb
      simp
    · rw [splitOnceAt, if_neg hx] at h
      rcases hs : splitOnceAt c xs with _ | ⟨a1, b1⟩
      · rw [hs] at h; simp at h
      · rw [hs] at h
        simp only [Option.map_some', Option.some.injEq, Prod.mk.injEq] at h
        obtain ⟨ha, hb⟩ := h
        obtain ⟨hxs, hna⟩ := ih a1 b1 hs
        subst hb
        refine ⟨?_, ?_⟩
        · rw [← ha, hxs]; rfl
        · rw [← ha]
          simp only [List.mem_cons, not_or]
          exact ⟨fun e => hx e.symm, hna⟩

theorem splitOnceAt_append (c : Char) (a b : Str) (hc : c ∉ a) :
    splitOnceAt c (a ++ c :: b) = some (a, b) := by
  induction a with
  | nil => simp [splitOnceAt]
  | cons x xs ih =>
    simp only [List.mem_cons, not_or] at hc
    obtain ⟨h1, h2⟩ := hc
    rw [List.cons_append, splitOnceAt, if_neg (fun e => h1 e.symm), ih h2]
    rfl

theorem splitOnceAt_eq_none (c : Char) (s : Str) :
    splitOnceAt c s = none ↔ c ∉ s := by
  induction s with
  | nil => simp [splitOnceAt]
  | cons x xs ih =>
    by_cases hx : x = c
    · subst hx
      rw [splitOnceAt, if_pos rfl]
      simp
    · rw [splitOnceAt, if_neg hx]
      rcases hs : splitOnceAt c xs with _ | p
      · have hnm : c ∉ xs := ih.mp hs
        simp only [Option.map_none', true_iff]
        simp only [List.mem_cons, not_or]
        exact ⟨fun e => hx e.symm, hnm⟩
      · have hmem : c ∈ xs := by
          by_contra hnm
          rw [ih.mpr hnm] at hs
          cases hs
        simp only [Option.map_some']
        constructor
        · intro h; cases h
        · intro h
          simp only [List.mem_cons, not_or] at h
          exact absurd hmem h.2

/-- Claim C1 is false on the code: the source regexes use literal
lower-case `0x` and `0o` with no `re.IGNORECASE`, so `int@-0X1A`
satisfies the claim's four forms but is rejected by `is_symb`. -/
theorem C1_counterexample :
    specC1Forms ("-0X1A".toList) = true ∧ is_symb ("int@-0X1A".toList) = false := by
  decide

/-- Claim C1 as amended: for every value string V, `is_symb` accepts
`int@V` exactly when V matches one of the four source integer forms —
optional `-` then decimal digits, optional `-` then lower-case-`0x` hex,
optional `-` then lower-case-`0o` octal, optional `+` then decimal digits
— each optionally followed by a single trailing newline (an artifact of
the Python `$` anchor).  Upper-case `0X`/`0O` base markers are rejected;
hex digits themselves may be either case. -/
theorem C1_amended (V : Str) :
    is_symb ("int@".toList ++ V) = (intDec V || intHex V || intOct V || intPos V) := by
  rfl

/-- Claim C1 amended, applied at the concrete value `-0x1a`. -/
theorem C1_witness :
    is_symb ("int@".toList ++ "-0x1a".toList) =
      (intDec ("-0x1a".toList) || intHex ("-0x1a".toList) ||
        intOct ("-0x1a".toList) || intPos ("-0x1a".toList)) :=
  C1_amended ("-0x1a".toList)

/-- Claim C2 is false on the code: `is_symb` splits at the first `@`
only, so `string@a@b` — a token with two `@` characters — is accepted. -/
theorem C2_counterexample :
    ("string@a@b".toList).count '@' = 2 ∧ is_symb ("string@a@b".toList) = true := by
  decide

theorem digitsCore_no_at (s : Str) (h : digitsCore s = true) : '@' ∉ s := by
  intro hm
  rw [digitsCore, Bool.and_eq_true, List.all_eq_true] at h
  exact absurd (h.2 '@' hm) (by decide)

theorem hexCore_no_at (s : Str) (h : hexCore s = true) : '@' ∉ s := by
  intro hm
  rcases s with _ | ⟨c0, s⟩
  · cases hm
  rcases s with _ | ⟨c1, ds⟩
  · exact Bool.noConfusion h
  simp only [hexCore, Bool.and_eq_true, beq_iff_eq, List.all_eq_true] at h
  obtain ⟨⟨⟨h0, h1⟩, _⟩, hall⟩ := h
  rcases List.mem_cons.mp hm with h2 | hm
  · rw [h0] at h2; exact absurd h2 (by decide)
  rcases List.mem_cons.mp hm with h3 | hm
  · rw [h1] at h3; exact absurd h3 (by decide)
  exact absurd (hall '@' hm) (by decide)

theorem octCore_no_at (s : Str) (h : octCore s = true) : '@' ∉ s := by
  intro hm
  rcases s with _ | ⟨c0, s⟩
  · cases hm
  rcases s with _ | ⟨c1, ds⟩
  · exact Bool.noConfusion h
  simp only [octCore, Bool.and_eq_true, beq_iff_eq, List.all_eq_true] at h
  obtain ⟨⟨⟨h0, h1⟩, _⟩, hall⟩ := h
  rcases List.mem_cons.mp hm with h2 | hm
  · rw [h0] at h2; exact absurd h2 (by decide)
  rcases List.mem_cons.mp hm with h3 | hm
  · rw [h1] at h3; exact absurd h3 (by decide)
  exact absurd (hall '@' hm) (by decide)

theorem optSign_no_at (sign : Char) (core : Str → Bool)
    (hcore : ∀ t, core t = true → '@' ∉ t) (hsign : sign ≠ '@')
    (s : Str) (h : optSign sign core s = true) : '@' ∉ s := by
  unfold optSign at h
  rw [Bool.or_eq_true] at h
  rcases h with h | h
  · exact hcore s h
  · rcases s with _ | ⟨c, rest⟩
    · cases h
    · simp only [Bool.and_eq_true, beq_iff_eq] at h
      obtain ⟨hcs, h2⟩ := h
      intro hm
      rcases List.mem_cons.mp hm with h3 | hm2
      · rw [hcs] at h3; exact hsign h3.symm
      · exact hcore rest h2 hm2

theorem pyMatchDollar_no_at (core : Str → Bool)
    (hcore : ∀ t, core t = true → '@' ∉ t)
    (s : Str) (h : pyMatchDollar core s = true) : '@' ∉ s := by
  rw [pyMatchDollar, Bool.or_eq_true] at h
  rcases h with h | h
  · exact hcore s h
  · rw [Bool.and_eq_true, beq_iff_eq] at h
    obtain ⟨hg, hc⟩ := h
    have hne : s ≠ [] := by intro e; rw [e] at hg; cases hg
    intro hm
    rw [← List.dropLast_append_getLast hne] at hm
    rcases List.mem_append.mp hm with hm1 | hm2
    · exact hcore _ hc hm1
    · have hlast : s.getLast hne = '\n' := by
        rw [List.getLast?_eq_getLast s hne] at hg
        injection hg with hg1
      rw [List.mem_singleton] at hm2
      exact absurd (hm2.trans hlast) (by decide)

theorem intDec_no_at (s : Str) (h : intDec s = true) : '@' ∉ s :=
  pyMatchDollar_no_at _
    (optSign_no_at '-' digitsCore digitsCore_no_at (by decide)) s h

theorem intHex_no_at (s : Str) (h : intHex s = true) : '@' ∉ s :=
  pyMatchDollar_no_at _
    (optSign_no_at '-' hexCore hexCore_no_at (by decide)) s h

theorem intOct_no_at (s : Str) (h : intOct s = true) : '@' ∉ s :=
  pyMatchDollar_no_at _
    (optSign_no_at '-' octCore octCore_no_at (by decide)) s h

theorem intPos_no_at (s : Str) (h : intPos s = true) : '@' ∉ s :=
  pyMatchDollar_no_at _
    (optSign_no_at '+' digitsCore digitsCore_no_at (by decide)) s h

theorem is_symb_split (t ty v : Str) (hs : splitOnceAt '@' t = some (ty, v)) :
    is_symb t =
      (if !is_type ty then false
       else if ty = "nil".toList then v == "nil".toList
       else if ty = "int".toList then intDec v || intHex v || intOct v || intPos v
       else if ty = "bool".toList then v == "true".toList || v == "false".toList
       else if ty = "string".toList then pyMatchDollar stringCore v
       else false) := by
  rw [is_symb, hs]

theorem specMultiAt_split (t ty v : Str) (hs : splitOnceAt '@' t = some (ty, v)) :
    specMultiAt t = (ty == "string".toList && pyMatchDollar stringCore v) := by
  rw [specMultiAt, hs]

/-- Claim C2 as amended: `is_symb` splits at the first `@` only, so a
token with more than one `@` is accepted exactly when its type keyword is
`string` and the remainder after the first `@` (which contains the extra
`@` characters) satisfies the string-value grammar; int-, bool- and
nil-typed values can never contain `@`, so those tokens are still
rejected. -/
theorem C2_amended (t : Str) (h : 2 ≤ t.count '@') :
    is_symb t = specMultiAt t := by
  rcases hs : splitOnceAt '@' t with _ | ⟨ty, v⟩
  · rw [splitOnceAt_eq_none] at hs
    rw [List.count_eq_zero.mpr hs] at h
    omega
  · obtain ⟨ht, hna⟩ := splitOnceAt_eq_some '@' t ty v hs
    have hv : '@' ∈ v := by
      rw [ht, List.count_append, List.count_cons_self, List.count_eq_zero.mpr hna] at h
      rw [← List.count_pos_iff]
      omega
    rw [is_symb_split t ty v hs, specMultiAt_split t ty v hs]
    by_cases h1 : ty = "nil".toList
    · subst h1
      rw [if_neg (by decide), if_pos rfl]
      have : (v == "nil".toList) = false := by
        rw [beq_eq_false_iff_ne]
        intro e; rw [e] at hv; exact absurd hv (by decide)
      rw [this]
      rfl
    by_cases h2 : ty = "int".toList
    · subst h2
      rw [if_neg (by decide), if_neg (by decide), if_pos rfl]
      have hd : intDec v = false := by
        cases he : intDec v
        · rfl
        · exact absurd hv (intDec_no_at v he)
      have hh : intHex v = false := by
        cases he : intHex v
        · rfl
        · exact absurd hv (intHex_no_at v he)
      have ho : intOct v = false := by
        cases he : intOct v
        · rfl
        · exact absurd hv (intOct_no_at v he)
      have hp : intPos v = false := by
        cases he : intPos v
        · rfl
        · exact absurd hv (intPos_no_at v he)
      rw [hd, hh, ho, hp]
      rfl
    by_cases h3 : ty = "bool".toList
    · subst h3
      rw [if_neg (by decide), if_neg (by decide), if_neg (by decide), if_pos rfl]
      have h4 : (v == "true".toList) = false := by
        rw [beq_eq_false_iff_ne]
        intro e; rw [e] at hv; exact absurd hv (by decide)
      have h5 : (v == "false".toList) = false := by
        rw [beq_eq_false_iff_ne]
        intro e; rw [e] at hv; exact absurd hv (by decide)
      rw [h4, h5]
      rfl
    by_cases h6 : ty = "string".toList
    · subst h6
      rw [if_neg (by decide), if_neg (by decide), if_neg (by decide), if_neg (by decide),
        if_pos rfl]
      simp
    · rw [if_neg h1, if_neg h2, if_neg h3, if_neg h6]
      have h7 : (ty == "string".toList) = false := beq_eq_false_iff_ne.mpr h6
      rw [h7, ite_self, Bool.false_and]

/-- Claim C2 amended, applied at the concrete token `string@a@b`. -/
theorem C2_witness :
    2 ≤ ("string@a@b".toList).count '@' ∧
      is_symb ("string@a@b".toList) = specMultiAt ("string@a@b".toList) :=
  ⟨by decide, C2_amended ("string@a@b".toList) (by decide)⟩

theorem is_var_split (t fr nm : Str) (hs : splitOnceAt '@' t = some (fr, nm)) :
    is_var t =
      ((fr == "GF".toList || fr == "TF".toList || fr == "LF".toList) &&
        pyMatchDollar nameCore nm) := by
  rw [is_var, hs]

theorem is_var_none (t : Str) (hs : splitOnceAt '@' t = none) : is_var t = false := by
  rw [is_var, hs]

/-- Claim C9 is false on the code: the name part of the `is_var` regex
uses Python's Unicode-aware `\w` for subsequent characters, so the
non-ASCII letter `é` is accepted — `GF@aé` is a valid variable even
though the claim's ASCII-only grammar rejects it. -/
theorem C9_counterexample :
    is_var ("GF@aé".toList) = true ∧ specC9Var ("GF@aé".toList) = false := by
  decide

/-- Claim C9 as amended: `is_var t` holds exactly when `t` splits at the
first `@` into a frame equal to `GF`, `TF` or `LF` and a name matching
the identifier regex, whose first character is an ASCII letter,
underscore or one of `-$&%*!?` and whose subsequent characters are
Python word characters (`\w`, which admits non-ASCII letters and digits)
or that symbol set, optionally followed by one trailing newline (the `$`
anchor artifact) — as captured by `pyMatchDollar nameCore`. -/
theorem C9_amended (t : Str) :
    is_var t = true ↔
      ∃ frame name, t = frame ++ '@' :: name ∧ '@' ∉ frame ∧
        (frame = "GF".toList ∨ frame = "TF".toList ∨ frame = "LF".toList) ∧
        pyMatchDollar nameCore name = true := by
  constructor
  · intro h
    rcases hs : splitOnceAt '@' t with _ | ⟨fr, nm⟩
    · rw [is_var_none t hs] at h; cases h
    · rw [is_var_split t fr nm hs] at h
      simp only [Bool.and_eq_true, Bool.or_eq_true, beq_iff_eq] at h
      obtain ⟨hfr, hnm⟩ := h
      obtain ⟨ht, hna⟩ := splitOnceAt_eq_some '@' t fr nm hs
      exact ⟨fr, nm, ht, hna, or_assoc.mp hfr, hnm⟩
  · rintro ⟨fr, nm, rfl, hna, hfr, hnm⟩
    rw [is_var_split _ fr nm (splitOnceAt_append '@' fr nm hna)]
    simp only [Bool.and_eq_true, Bool.or_eq_true, beq_iff_eq]
    exact ⟨or_assoc.mpr hfr, hnm⟩

/-- Claim C9 amended, applied at the concrete token `GF@x`. -/
theorem C9_witness : is_var ("GF@x".toList) = true :=
  (C9_amended ("GF@x".toList)).mpr
    ⟨"GF".toList, "x".toList, rfl, by decide, Or.inl rfl, by decide⟩

/-- Claim C3 is false on the code: for `WRITE label@foo`, resolution of
`label@foo` against Symbol does not yield kind Label — it fails outright
(the token is not a type keyword, not a variable since `label` is no
frame, and not a symbol since `label` is no type keyword) — and the run
does not fail with `OperandTypeMismatch`. -/
theorem C3_counterexample :
    assemble [".IPPcode24".toList, "WRITE label@foo".toList] ≠
        Except.error PError.OperandTypeMismatch ∧
      determine_operand_type_and_value ("label@foo".toList) ("s".toList) ≠
        Except.ok ("label".toList, "label@foo".toList) := by
  decide

/-- Claim C3 as amended: on `.IPPcode24` followed by `WRITE label@foo`,
operand resolution of `label@foo` against Symbol fails, and the run fails
with that resolution failure — the spec's `InvalidOperandSyntax`, modelled
as `InvalidOperand` — not with `OperandTypeMismatch`. -/
theorem C3_amended :
    determine_operand_type_and_value ("label@foo".toList) ("s".toList) =
        Except.error PError.InvalidOperand ∧
      assemble [".IPPcode24".toList, "WRITE label@foo".toList] =
        Except.error PError.InvalidOperand := by
  decide

/-- Claim C4 is false on the code: `GF@x` resolves against Symbol to kind
`var` with value `GF@x`, but the reconstructed token `var@GF@x` does not
re-resolve — it fails resolution entirely. -/
theorem C4_counterexample :
    determine_operand_type_and_value ("GF@x".toList) ("s".toList) =
        Except.ok ("var".toList, "GF@x".toList) ∧
      determine_operand_type_and_value ("var@GF@x".toList) ("s".toList) =
        Except.error PError.InvalidOperand := by
  decide

/-- Claim C4 as amended: the round-trip holds for the literal kinds only.
If a token resolves against Symbol to kind `int`, `bool`, `string` or
`nil` with value v, then the reconstructed token kind`@`v (the kind
string is already lower-case) re-resolves against Symbol to the same kind
and value; tokens resolved to kind `var` or `type` do not round-trip. -/
theorem C4_amended (t k v : Str)
    (h : determine_operand_type_and_value t ("s".toList) = Except.ok (k, v))
    (hk : k = "int".toList ∨ k = "bool".toList ∨ k = "string".toList ∨
      k = "nil".toList) :
    determine_operand_type_and_value (k ++ '@' :: v) ("s".toList) =
      Except.ok (k, v) := by
  have h0 := h
  rw [determine_operand_type_and_value] at h
  rw [if_neg (by decide)] at h
  split_ifs at h with h1 h2 h3
  · injection h with h4
    rw [Prod.mk.injEq] at h4
    obtain ⟨hk2, _⟩ := h4
    rcases hk with e | e | e | e <;> rw [e] at hk2 <;> exact absurd hk2 (by decide)
  · injection h with h4
    rw [Prod.mk.injEq] at h4
    obtain ⟨hk2, _⟩ := h4
    rcases hk with e | e | e | e <;> rw [e] at hk2 <;> exact absurd hk2 (by decide)
  · rcases hs : splitOnceAt '@' t with _ | ⟨ty, val⟩
    · rw [hs] at h
      exact Except.noConfusion h
    · rw [hs] at h
      injection h with h4
      rw [Prod.mk.injEq] at h4
      obtain ⟨hty, hval⟩ := h4
      obtain ⟨ht, _⟩ := splitOnceAt_eq_some '@' t ty val hs
      rw [hty, hval] at ht
      rw [← ht]
      exact h0

/-- Claim C4 amended, applied at the concrete token `int@42`. -/
theorem C4_witness :
    determine_operand_type_and_value ("int".toList ++ '@' :: "42".toList)
        ("s".toList) =
      Except.ok ("int".toList, "42".toList) :=
  C4_amended ("int@42".toList) ("int".toList) ("42".toList) (by decide)
    (Or.inl rfl)

/-- Claim C8: a token that resolves to kind `type` in a Symbol slot is
rejected by the compatibility check with `OperandTypeMismatch` — the
operand-processing step of the parser never coerces it. -/
theorem C8_type_not_coerced (op v : Str)
    (h : determine_operand_type_and_value op ("s".toList) =
      Except.ok ("type".toList, v)) :
    processOperand ("s".toList) op = Except.error PError.OperandTypeMismatch := by
  rw [processOperand, h]
  rfl

/-- Claim C8, applied at the bare token `int` (a type keyword) offered in
a Symbol slot. -/
theorem C8_witness :
    processOperand ("s".toList) ("int".toList) =
      Except.error PError.OperandTypeMismatch :=
  C8_type_not_coerced ("int".toList) ("int".toList) (by decide)

theorem determine_error (operand expected : Str) (err : PError)
    (h : determine_operand_type_and_value operand expected = Except.error err) :
    err = PError.InvalidOperand := by
  rw [determine_operand_type_and_value] at h
  split_ifs at h
  · injection h with h6; exact h6.symm
  · rcases hs : splitOnceAt '@' operand with _ | ⟨ty, v⟩ <;> rw [hs] at h
    · injection h with h6; exact h6.symm
    · exact Except.noConfusion h
  · injection h with h6; exact h6.symm

theorem processOperand_err (e o : Str) (err : PError)
    (hd : determine_operand_type_and_value o e = Except.error err) :
    processOperand e o = Except.error err := by
  rw [processOperand, hd]

theorem processOperand_ok (e o a v : Str)
    (hd : determine_operand_type_and_value o e = Except.ok (a, v)) :
    processOperand e o =
      (if validate_operand_type e a o then Except.ok ⟨a, v⟩
       else Except.error PError.OperandTypeMismatch) := by
  rw [processOperand, hd]

theorem processOperand_ne_arity (e o : Str) :
    processOperand e o ≠ Except.error PError.ArityMismatch := by
  rcases hd : determine_operand_type_and_value o e with err | ⟨a, v⟩
  · rw [processOperand_err e o err hd]
    have he := determine_error o e err hd
    subst he
    intro hc
    injection hc with hc1
    exact PError.noConfusion hc1
  · rw [processOperand_ok e o a v hd]
    split_ifs
    · intro hc; exact Except.noConfusion hc
    · intro hc
      injection hc with hc1
      exact PError.noConfusion hc1

theorem resolveOperands_cons_err (e o : Str) (es os : List Str) (err : PError)
    (hp : processOperand e o = Except.error err) :
    resolveOperands (e :: es) (o :: os) = Except.error err := by
  rw [resolveOperands, hp]

theorem resolveOperands_cons_ok (e o : Str) (es os : List Str) (op : Operand)
    (hp : processOperand e o = Except.ok op) :
    resolveOperands (e :: es) (o :: os) =
      (match resolveOperands es os with
       | .error err => Except.error err
       | .ok ops => Except.ok (op :: ops)) := by
  rw [resolveOperands, hp]

theorem resolveOperands_ne_arity (es os : List Str) (h : es.length = os.length) :
    resolveOperands es os ≠ Except.error PError.ArityMismatch := by
  induction es generalizing os with
  | nil =>
    rcases os with _ | ⟨o, os⟩
    · rw [resolveOperands]; intro hc; exact Except.noConfusion hc
    · simp at h
  | cons e es ih =>
    rcases os with _ | ⟨o, os⟩
    · simp at h
    · rcases hp : processOperand e o with err | op
      · rw [resolveOperands_cons_err e o es os err hp]
        intro hc
        injection hc with hc1
        exact processOperand_ne_arity e o (by rw [hp, hc1])
      · rw [resolveOperands_cons_ok e o es os op hp]
        rcases hr : resolveOperands es os with err | ops
        · intro hc
          injection hc with hc1
          exact ih os (by simpa using h) (by rw [hr, hc1])
        · intro hc; exact Except.noConfusion hc

theorem parse_instruction_nil (l : Str) (o : Nat) (h1 : pySplitOnce l = []) :
    parse_instruction l o = Except.error PError.UnknownOpcode := by
  rw [parse_instruction.eq_def, h1]

theorem parse_instruction_eq (l : Str) (o : Nat) (name : Str) (rest : List Str)
    (h1 : pySplitOnce l = name :: rest) :
    parse_instruction l o =
      (match instructions.lookup (name.map Char.toLower) with
       | none => Except.error PError.UnknownOpcode
       | some expected =>
         if (operandTokens (name :: rest)).length ≠ expected.length then
           Except.error PError.ArityMismatch
         else
           match resolveOperands expected (operandTokens (name :: rest)) with
           | .error e => Except.error e
           | .ok ops => Except.ok ⟨o, (name.map Char.toLower).map Char.toUpper, ops⟩) := by
  rw [parse_instruction.eq_def, h1]

theorem parse_instruction_order (l : Str) (o : Nat) (r : InstructionRecord)
    (h : parse_instruction l o = Except.ok r) : r.order = o := by
  rcases h1 : pySplitOnce l with _ | ⟨name, rest⟩
  · rw [parse_instruction_nil l o h1] at h
    exact Except.noConfusion h
  · rw [parse_instruction_eq l o name rest h1] at h
    rcases h2 : instructions.lookup (name.map Char.toLower) with _ | expected <;>
      simp only [h2] at h
    · exact Except.noConfusion h
    · split_ifs at h
      rcases h4 : resolveOperands expected (operandTokens (name :: rest)) with e | ops <;>
        simp only [h4] at h
      · exact Except.noConfusion h
      · injection h with h5
        rw [← h5]

/-- Claim C6: for a line whose opcode is in the signature table with
signature `sig`, `parse_instruction` fails with `ArityMismatch` exactly
when the number of operand tokens on the line differs from the signature
length — including zero tokens against a non-empty signature and
non-zero tokens against an empty one. -/
theorem C6_arity (line : Str) (o : Nat) (name : Str) (rest : List Str)
    (sig : List Str)
    (h1 : pySplitOnce line = name :: rest)
    (h2 : instructions.lookup (name.map Char.toLower) = some sig) :
    (parse_instruction line o = Except.error PError.ArityMismatch ↔
      (operandTokens (name :: rest)).length ≠ sig.length) := by
  rw [parse_instruction_eq line o name rest h1]
  simp only [h2]
  by_cases hlen : (operandTokens (name :: rest)).length ≠ sig.length
  · rw [if_pos hlen]
    simp [hlen]
  · rw [if_neg hlen]
    constructor
    · intro hc
      rcases hr : resolveOperands sig (operandTokens (name :: rest)) with e | ops <;>
        simp only [hr] at hc
      · injection hc with hc1
        exact absurd (by rw [hr, hc1])
          (resolveOperands_ne_arity sig (operandTokens (name :: rest))
            (not_ne_iff.mp hlen).symm)
      · exact Except.noConfusion hc
    · intro hc
      exact absurd hc hlen

/-- Claim C6, applied at the concrete line `PUSHS` (signature length 1,
zero operand tokens): the arity gate fires. -/
theorem C6_witness :
    (parse_instruction ("PUSHS".toList) 1 = Except.error PError.ArityMismatch ↔
      (operandTokens ["PUSHS".toList]).length ≠ [("s".toList : Str)].length) :=
  C6_arity ("PUSHS".toList) 1 ("PUSHS".toList) [] ["s".toList] (by decide)
    (by decide)

theorem space_notHash (c : Char) (h : isSpaceChar c = true) : notHash c = true := by
  rcases hn : notHash c
  · rw [notHash, bne_eq_false_iff_eq] at hn
    rw [hn] at h
    exact absurd h (by decide)
  · rfl

theorem dropWhile_append_all (p : Char → Bool) (a b : Str) (h : a.all p = true) :
    (a ++ b).dropWhile p = b.dropWhile p := by
  induction a with
  | nil => rfl
  | cons c cs ih =>
    rw [List.all_cons, Bool.and_eq_true] at h
    rw [List.cons_append, List.dropWhile_cons, if_pos h.1]
    exact ih h.2

theorem takeWhile_append_all (p : Char → Bool) (a b : Str) (h : a.all p = true) :
    (a ++ b).takeWhile p = a ++ b.takeWhile p := by
  induction a with
  | nil => rfl
  | cons c cs ih =>
    rw [List.all_cons, Bool.and_eq_true] at h
    rw [List.cons_append, List.takeWhile_cons, if_pos h.1, ih h.2, List.cons_append]

theorem takeWhile_append_stop (p : Char → Bool) (a b : Str) (h : a.all p = false) :
    (a ++ b).takeWhile p = a.takeWhile p := by
  induction a with
  | nil => exact Bool.noConfusion h
  | cons c cs ih =>
    rw [List.all_cons] at h
    rcases hc : p c
    · rw [List.cons_append, List.takeWhile_cons, if_neg (by simp [hc]),
        List.takeWhile_cons, if_neg (by simp [hc])]
    · rw [hc, Bool.true_and] at h
      rw [List.cons_append, List.takeWhile_cons, if_pos hc, List.takeWhile_cons,
        if_pos hc, ih h]

theorem takeWhile_all_eq (p : Char → Bool) (a : Str) (h : a.all p = true) :
    a.takeWhile p = a := by
  induction a with
  | nil => rfl
  | cons c cs ih =>
    rw [List.all_cons, Bool.and_eq_true] at h
    rw [List.takeWhile_cons, if_pos h.1, ih h.2]

theorem dropWhile_idem (p : Char → Bool) (l : Str) :
    (l.dropWhile p).dropWhile p = l.dropWhile p := by
  induction l with
  | nil => rfl
  | cons c cs ih =>
    rcases hc : p c
    · rw [List.dropWhile_cons, if_neg (by simp [hc]), List.dropWhile_cons,
        if_neg (by simp [hc])]
    · rw [List.dropWhile_cons, if_pos hc, ih]

theorem dropWhile_head_false (p : Char → Bool) (l : Str) (c : Char) (cs : Str)
    (h : l.dropWhile p = c :: cs) : p c = false := by
  induction l with
  | nil => cases h
  | cons x xs ih =>
    rcases hx : p x
    · rw [List.dropWhile_cons, if_neg (by simp [hx])] at h
      injection h with h1 h2
      rw [← h1]
      exact hx
    · rw [List.dropWhile_cons, if_pos hx] at h
      exact ih h

theorem pyRStrip_append_all (a b : Str) (h : b.all isSpaceChar = true) :
    pyRStrip (a ++ b) = pyRStrip a := by
  rw [pyRStrip, pyRStrip, List.reverse_append,
    dropWhile_append_all _ _ _ (by rw [List.all_reverse]; exact h)]

theorem pyRStrip_idem (l : Str) : pyRStrip (pyRStrip l) = pyRStrip l := by
  rw [pyRStrip, pyRStrip, List.reverse_reverse, dropWhile_idem]

theorem pyRStrip_decomp (l : Str) :
    l = pyRStrip l ++ (l.reverse.takeWhile isSpaceChar).reverse ∧
      ((l.reverse.takeWhile isSpaceChar).reverse).all isSpaceChar = true := by
  constructor
  · conv_lhs => rw [← List.reverse_reverse l,
      ← List.takeWhile_append_dropWhile isSpaceChar l.reverse]
    rw [List.reverse_append, pyRStrip]
  · rw [List.all_reverse, List.all_eq_true]
    exact fun x hx => List.mem_takeWhile_imp hx

theorem takeWhile_dropWhile_comm (l : Str) :
    (l.dropWhile isSpaceChar).takeWhile notHash =
      (l.takeWhile notHash).dropWhile isSpaceChar := by
  induction l with
  | nil => rfl
  | cons c cs ih =>
    rcases hsp : isSpaceChar c
    · rcases hh : notHash c
      · rw [List.dropWhile_cons, if_neg (by simp [hsp]), List.takeWhile_cons,
          if_neg (by simp [hh])]
        rfl
      · rw [List.dropWhile_cons, if_neg (by simp [hsp]), List.takeWhile_cons,
          if_pos hh, List.dropWhile_cons, if_neg (by simp [hsp])]
    · have hnb : notHash c = true := space_notHash c hsp
      rw [List.dropWhile_cons, if_pos hsp, ih, List.takeWhile_cons, if_pos hnb,
        List.dropWhile_cons, if_pos hsp]

theorem pyRStrip_takeWhile (t : Str) :
    pyRStrip ((pyRStrip t).takeWhile notHash) = pyRStrip (t.takeWhile notHash) := by
  obtain ⟨hdec, hall⟩ := pyRStrip_decomp t
  by_cases hmall : (pyRStrip t).all notHash = true
  · have hwall : ((t.reverse.takeWhile isSpaceChar).reverse).all notHash = true := by
      rw [List.all_eq_true] at hall ⊢
      exact fun x hx => space_notHash x (hall x hx)
    conv_rhs => rw [hdec]
    rw [takeWhile_append_all _ _ _ hmall, takeWhile_all_eq _ _ hwall,
      takeWhile_all_eq _ _ hmall, pyRStrip_append_all _ _ hall]
  · have hfalse : (pyRStrip t).all notHash = false := by
      rcases he : (pyRStrip t).all notHash
      · rfl
      · exact absurd he hmall
    conv_rhs => rw [hdec]
    rw [takeWhile_append_stop _ _ _ hfalse]

theorem commentStrip_alt (l : Str) :
    commentStrip l = pyRStrip ((l.dropWhile isSpaceChar).takeWhile notHash) := by
  rw [commentStrip, pyStrip, takeWhile_dropWhile_comm]

theorem dropWhile_pyStrip (l : Str) :
    (pyStrip l).dropWhile isSpaceChar = pyStrip l := by
  rw [pyStrip]
  rcases hd : l.dropWhile isSpaceChar with _ | ⟨c, cs⟩
  · rfl
  · have hc : isSpaceChar c = false := dropWhile_head_false _ l c cs hd
    rcases hr : pyRStrip (c :: cs) with _ | ⟨c2, cs2⟩
    · rfl
    · obtain ⟨hdec, _⟩ := pyRStrip_decomp (c :: cs)
      rw [hr, List.cons_append] at hdec
      injection hdec with h1 _
      rw [List.dropWhile_cons, if_neg (by rw [← h1, hc]; simp)]

theorem commentStrip_pyStrip (l : Str) :
    commentStrip (pyStrip l) = commentStrip l := by
  rw [commentStrip_alt (pyStrip l), dropWhile_pyStrip, pyStrip, pyRStrip_takeWhile,
    ← commentStrip_alt]

theorem skip_commentStrip (l : Str) (h : skipLine l = true) :
    commentStrip (pyStrip l) = [] := by
  rw [skipLine] at h
  rcases hp : pyStrip l with _ | ⟨c, cs⟩
  · rfl
  · rw [hp] at h
    rw [beq_iff_eq] at h
    subst h
    rw [commentStrip, List.takeWhile_cons, if_neg (by decide)]
    rfl

theorem not_skip (l : Str) (h : commentStrip (pyStrip l) ≠ []) :
    skipLine l = false := by
  rcases hs : skipLine l
  · rfl
  · exact absurd (skip_commentStrip l hs) h

theorem specBodyLine_true_iff (l : Str) :
    specBodyLine l = true ↔ commentStrip l ≠ [] := by
  rw [specBodyLine, Bool.not_eq_true']
  simp [List.isEmpty_iff]

theorem runBody_cons_skip (o : Nat) (l : Str) (ls : List Str)
    (h : skipLine l = true) :
    runBody o (l :: ls) = runBody o ls := by
  rw [runBody, if_pos h]

theorem runBody_cons_blank (o : Nat) (l : Str) (ls : List Str)
    (h1 : skipLine l = false) (h2 : (commentStrip (pyStrip l)).isEmpty = true) :
    runBody o (l :: ls) = runBody o ls := by
  rw [runBody, if_neg (by simp [h1]), if_pos h2]

theorem runBody_cons_content (o : Nat) (l : Str) (ls : List Str)
    (h1 : skipLine l = false) (h2 : (commentStrip (pyStrip l)).isEmpty = false) :
    runBody o (l :: ls) =
      (match parse_instruction (commentStrip (pyStrip l)) (o + 1) with
       | .error e => Except.error e
       | .ok r =>
         match runBody (o + 1) ls with
         | .error e => Except.error e
         | .ok rest => Except.ok (r :: rest)) := by
  rw [runBody, if_neg (by simp [h1]), if_neg (by simp [h2])]

theorem specBodyLine_false_of_skip (l : Str) (h : skipLine l = true) :
    specBodyLine l = false := by
  rcases hs : specBodyLine l
  · rfl
  · have h2 := (specBodyLine_true_iff l).mp hs
    rw [← commentStrip_pyStrip] at h2
    exact absurd (skip_commentStrip l h) h2

theorem specBodyLine_false_of_blank (l : Str)
    (h : (commentStrip (pyStrip l)).isEmpty = true) :
    specBodyLine l = false := by
  rcases hs : specBodyLine l
  · rfl
  · have h2 := (specBodyLine_true_iff l).mp hs
    rw [← commentStrip_pyStrip] at h2
    exact absurd (List.isEmpty_iff.mp h) h2

theorem specBodyLine_true_of_content (l : Str)
    (h : (commentStrip (pyStrip l)).isEmpty = false) :
    specBodyLine l = true := by
  rw [specBodyLine_true_iff, ← commentStrip_pyStrip]
  intro he
  rw [he] at h
  exact Bool.noConfusion h

theorem runBody_spec (ls : List Str) (o : Nat) (recs : List InstructionRecord)
    (h : runBody o ls = Except.ok recs) :
    recs.map (fun r => r.order) = List.range' (o + 1) recs.length ∧
      recs.length = ls.countP specBodyLine := by
  induction ls generalizing o recs with
  | nil =>
    rw [runBody] at h
    injection h with h1
    rw [← h1]
    exact ⟨rfl, rfl⟩
  | cons l ls ih =>
    rcases hsk : skipLine l
    · rcases hce : (commentStrip (pyStrip l)).isEmpty
      · rw [runBody_cons_content o l ls hsk hce] at h
        rcases hp : parse_instruction (commentStrip (pyStrip l)) (o + 1) with e | r <;>
          simp only [hp] at h
        · exact Except.noConfusion h
        · rcases hr : runBody (o + 1) ls with e | rest <;> simp only [hr] at h
          · exact Except.noConfusion h
          · injection h with h1
            rw [← h1]
            obtain ⟨ha, hb⟩ := ih (o + 1) rest hr
            have hord : r.order = o + 1 := parse_instruction_order _ _ _ hp
            constructor
            · rw [List.map_cons, ha, List.length_cons, hord, List.range'_succ]
            · rw [List.countP_cons, specBodyLine_true_of_content l hce,
                List.length_cons, hb]
              simp
      · rw [runBody_cons_blank o l ls hsk hce] at h
        obtain ⟨ha, hb⟩ := ih o recs h
        refine ⟨ha, ?_⟩
        rw [List.countP_cons, specBodyLine_false_of_blank l hce, hb]
        simp
    · rw [runBody_cons_skip o l ls hsk] at h
      obtain ⟨ha, hb⟩ := ih o recs h
      refine ⟨ha, ?_⟩
      rw [List.countP_cons, specBodyLine_false_of_skip l hsk, hb]
      simp

theorem assemble_all_skip (lines : List Str)
    (h : ∀ l ∈ lines, skipLine l = true) :
    assemble lines = Except.error PError.MissingHeader := by
  induction lines with
  | nil => rw [assemble]
  | cons l ls ih =>
    rw [assemble, if_pos (h l (List.mem_cons_self l ls))]
    exact ih (fun x hx => h x (List.mem_cons_of_mem l hx))

theorem assemble_bad_first (lines : List Str) (l0 : Str)
    (hf : lines.find? (fun l => !skipLine l) = some l0)
    (hh : is_header (commentStrip (pyStrip l0)) = false) :
    assemble lines = Except.error PError.MissingHeader := by
  induction lines with
  | nil => cases hf
  | cons l ls ih =>
    rcases hsk : skipLine l
    · rw [List.find?_cons_of_pos ls (by simp [hsk])] at hf
      injection hf with he
      subst he
      rw [assemble, if_neg (by simp [hsk]), if_neg (by simp [hh])]
    · rw [List.find?_cons_of_neg ls (by simp [hsk])] at hf
      rw [assemble, if_pos hsk]
      exact ih hf

theorem assemble_skip_pre (pre rest : List Str)
    (h : ∀ l ∈ pre, skipLine l = true) :
    assemble (pre ++ rest) = assemble rest := by
  induction pre with
  | nil => rfl
  | cons l ls ih =>
    rw [List.cons_append, assemble, if_pos (h l (List.mem_cons_self l ls))]
    exact ih (fun x hx => h x (List.mem_cons_of_mem l hx))

theorem header_not_skip (l : Str) (h : is_header (commentStrip (pyStrip l)) = true) :
    skipLine l = false := by
  apply not_skip
  intro he
  rw [he] at h
  exact absurd h (by decide)

theorem assemble_header (hd : Str) (ls : List Str)
    (h : is_header (commentStrip (pyStrip hd)) = true) :
    assemble (hd :: ls) = runBody 0 ls := by
  rw [assemble, if_neg (by simp [header_not_skip hd h]), if_pos h]

theorem runBody_all_blank (o : Nat) (ls : List Str)
    (h : ∀ l ∈ ls, commentStrip l = []) :
    runBody o ls = Except.ok [] := by
  induction ls with
  | nil => rw [runBody]
  | cons l ls ih =>
    have hl : commentStrip (pyStrip l) = [] := by
      rw [commentStrip_pyStrip]
      exact h l (List.mem_cons_self l ls)
    have hrest : ∀ x ∈ ls, commentStrip x = [] :=
      fun x hx => h x (List.mem_cons_of_mem l hx)
    rcases hsk : skipLine l
    · rw [runBody_cons_blank o l ls hsk (by rw [hl]; rfl)]
      exact ih hrest
    · rw [runBody_cons_skip o l ls hsk]
      exact ih hrest

/-- Claim C5: on every successful run, the records carry order values
exactly 1..N, strictly increasing with no gaps, where N is the number of
body lines (the lines after the accepted header) that are non-empty after
comment-stripping and trimming; the header and blank or comment-only
lines do not increment the counter. -/
theorem C5_orders (lines : List Str) (recs : List InstructionRecord)
    (h : assemble lines = Except.ok recs) :
    recs.map (fun r => r.order) = List.range' 1 recs.length ∧
      recs.length = (bodyLines lines).countP specBodyLine := by
  induction lines with
  | nil =>
    rw [assemble] at h
    exact Except.noConfusion h
  | cons l ls ih =>
    rcases hsk : skipLine l
    · rcases hhd : is_header (commentStrip (pyStrip l))
      · rw [assemble, if_neg (by simp [hsk]), if_neg (by simp [hhd])] at h
        exact Except.noConfusion h
      · rw [assemble_header l ls hhd] at h
        rw [bodyLines, if_neg (by simp [hsk])]
        exact runBody_spec ls 0 recs h
    · rw [assemble, if_pos hsk] at h
      rw [bodyLines, if_pos hsk]
      exact ih h

/-- Claim C5, applied to a concrete five-line program with a header, two
instructions, a blank line and a comment line: orders are exactly 1, 2. -/
theorem C5_witness :
    ([⟨1, "MOVE".toList, [⟨"var".toList, "GF@x".toList⟩,
        ⟨"int".toList, "42".toList⟩]⟩,
      ⟨2, "WRITE".toList, [⟨"string".toList, "hi".toList⟩]⟩] :
        List InstructionRecord).map (fun r => r.order) =
      List.range' 1 ([⟨1, "MOVE".toList, [⟨"var".toList, "GF@x".toList⟩,
        ⟨"int".toList, "42".toList⟩]⟩,
      ⟨2, "WRITE".toList, [⟨"string".toList, "hi".toList⟩]⟩] :
        List InstructionRecord).length ∧
    ([⟨1, "MOVE".toList, [⟨"var".toList, "GF@x".toList⟩,
        ⟨"int".toList, "42".toList⟩]⟩,
      ⟨2, "WRITE".toList, [⟨"string".toList, "hi".toList⟩]⟩] :
        List InstructionRecord).length =
      (bodyLines [".IPPcode24 # hdr".toList, "MOVE GF@x int@42".toList,
        "".toList, "# note".toList, "WRITE string@hi".toList]).countP
        specBodyLine :=
  C5_orders
    [".IPPcode24 # hdr".toList, "MOVE GF@x int@42".toList, "".toList,
      "# note".toList, "WRITE string@hi".toList]
    [⟨1, "MOVE".toList, [⟨"var".toList, "GF@x".toList⟩,
        ⟨"int".toList, "42".toList⟩]⟩,
      ⟨2, "WRITE".toList, [⟨"string".toList, "hi".toList⟩]⟩]
    (by decide)

/-- Claim C7: an input whose lines are all blank or comment-only (or an
empty input) fails with `MissingHeader`; an input whose first contentful
line is not the header fails with `MissingHeader`; and an input made of
skippable lines, then the header, then only blank or comment-only lines
succeeds with the empty instruction sequence. -/
theorem C7_header (lines pre post : List Str) (hdr : Str) :
    (lines.find? (fun l => !skipLine l) = none →
        assemble lines = Except.error PError.MissingHeader) ∧
      (∀ l0, lines.find? (fun l => !skipLine l) = some l0 →
        is_header (commentStrip (pyStrip l0)) = false →
        assemble lines = Except.error PError.MissingHeader) ∧
      ((∀ l ∈ pre, skipLine l = true) →
        is_header (commentStrip (pyStrip hdr)) = true →
        (∀ l ∈ post, commentStrip l = []) →
        assemble (pre ++ hdr :: post) = Except.ok []) := by
  refine ⟨?_, ?_, ?_⟩
  · intro hf
    apply assemble_all_skip
    intro l hl
    have := List.find?_eq_none.mp hf l hl
    rcases he : skipLine l
    · exact absurd (by simp [he]) this
    · rfl
  · intro l0 hf hh
    exact assemble_bad_first lines l0 hf hh
  · intro hpre hhdr hpost
    rw [assemble_skip_pre pre (hdr :: post) hpre, assemble_header hdr post hhdr]
    exact runBody_all_blank 0 post hpost

/-- Claim C7, applied concretely: a header-less one-line program fails
with `MissingHeader`, and a program of one blank line, the header and one
comment line succeeds with no instructions. -/
theorem C7_witness :
    assemble ["MOVE GF@x int@42".toList] = Except.error PError.MissingHeader ∧
      assemble (["  ".toList] ++ ".IPPcode24".toList :: ["# c".toList]) =
        Except.ok [] :=
  ⟨(C7_header ["MOVE GF@x int@42".toList] [] [] []).2.1
      ("MOVE GF@x int@42".toList) (by decide) (by decide),
    (C7_header [] ["  ".toList] ["# c".toList] (".IPPcode24".toList)).2.2
      (by decide) (by decide) (by decide)⟩

theorem runBody_dup (m : Nat) (l : Str) (ls : List Str)
    (h : commentStrip (pyStrip l) = ".IPPcode24".toList) :
    runBody m (l :: ls) = Except.error PError.UnknownOpcode := by
  have hsk : skipLine l = false := not_skip l (by rw [h]; intro e; cases e)
  rw [runBody_cons_content m l ls hsk (by rw [h]; rfl), h]
  have hp : parse_instruction (".IPPcode24".toList) (m + 1) =
      Except.error PError.UnknownOpcode := by
    rw [parse_instruction_eq (".IPPcode24".toList) (m + 1) (".IPPcode24".toList)
      [] (by decide)]
    have hlk : instructions.lookup ((".IPPcode24".toList).map Char.toLower) =
        none := by decide
    rw [hlk]
  simp only [hp]

theorem runBody_append_err (xs ys : List Str) (o : Nat)
    (rs : List InstructionRecord) (e : PError)
    (h1 : runBody o xs = Except.ok rs)
    (h2 : ∀ m, runBody m ys = Except.error e) :
    runBody o (xs ++ ys) = Except.error e := by
  induction xs generalizing o rs with
  | nil => exact h2 o
  | cons l ls ih =>
    rw [List.cons_append]
    rcases hsk : skipLine l
    · rcases hce : (commentStrip (pyStrip l)).isEmpty
      · rw [runBody_cons_content o l ls hsk hce] at h1
        rw [runBody_cons_content o l (ls ++ ys) hsk hce]
        rcases hp : parse_instruction (commentStrip (pyStrip l)) (o + 1) with er | r <;>
          simp only [hp] at h1 ⊢
        · exact Except.noConfusion h1
        · rcases hr : runBody (o + 1) ls with er | rest <;> simp only [hr] at h1
          · exact Except.noConfusion h1
          · rw [ih (o + 1) rest hr]
      · rw [runBody_cons_blank o l ls hsk hce] at h1
        rw [runBody_cons_blank o l (ls ++ ys) hsk hce]
        exact ih o rs h1
    · rw [runBody_cons_skip o l ls hsk] at h1
      rw [runBody_cons_skip o l (ls ++ ys) hsk]
      exact ih o rs h1

/-- Claim C10 is false as universally stated: in the program
`.IPPcode24`, `PUSHS`, `.IPPcode24`, the duplicate header line appears
after the header was accepted, yet the run fails with `ArityMismatch`
raised by the earlier `PUSHS` line, not with `UnknownOpcode` — the
duplicate is never reached. -/
theorem C10_counterexample :
    assemble [".IPPcode24".toList, "PUSHS".toList, ".IPPcode24".toList] =
        Except.error PError.ArityMismatch ∧
      commentStrip (pyStrip (".IPPcode24".toList)) = ".IPPcode24".toList ∧
      assemble [".IPPcode24".toList, "PUSHS".toList, ".IPPcode24".toList] ≠
        Except.error PError.UnknownOpcode := by
  decide

/-- Claim C10 as amended: the header is consumed at most once.  If the
header has been accepted and every body line before the duplicate parses
successfully, then a later line whose comment-stripped trimmed content is
`.IPPcode24` is handed to the instruction parser as an ordinary
instruction line, and the run fails with `UnknownOpcode`, because
`.ippcode24` is not in the signature table. -/
theorem C10_amended (pre : List Str) (hdr : Str) (mid : List Str) (dup : Str)
    (rest : List Str) (recs : List InstructionRecord)
    (hpre : ∀ l ∈ pre, skipLine l = true)
    (hhdr : is_header (commentStrip (pyStrip hdr)) = true)
    (hmid : runBody 0 mid = Except.ok recs)
    (hdup : commentStrip (pyStrip dup) = ".IPPcode24".toList) :
    assemble (pre ++ hdr :: (mid ++ dup :: rest)) =
      Except.error PError.UnknownOpcode := by
  rw [assemble_skip_pre pre _ hpre, assemble_header hdr _ hhdr]
  exact runBody_append_err mid (dup :: rest) 0 recs _ hmid
    (fun m => runBody_dup m dup rest hdup)

/-- Claim C10 amended, applied concretely: a program that is exactly the
header followed by a duplicate header line fails with `UnknownOpcode`. -/
theorem C10_witness :
    assemble ([] ++ ".IPPcode24".toList :: ([] ++ ".IPPcode24".toList :: [])) =
      Except.error PError.UnknownOpcode :=
  C10_amended [] (".IPPcode24".toList) [] (".IPPcode24".toList) [] []
    (by decide) (by decide) (by decide) (by decide)

end IPP24
